import Mathlib

/-!
Shallow embedding of `src/src/features/hotkey.tsx` from The-Modding-Tree-X.

The module keeps a process-wide registry of hotkeys (`hotkeys`, a JS `Record`
whose values may be `undefined`), populated by the `addLayer` bus handler and
cleared by the `removeLayer` bus handler, and a global `document.onkeydown`
listener that gates on input-field focus and on the win state, resolves the
event to an ordered list of candidate key-combination strings, probes the
registry with the JS `in` operator, and fires the first hit when enabled.

Modelling choices:
- the JS `Record<string, GenericHotkey | undefined>` becomes an association
  list `List (String × Option (GenericHotkey Env))` with unique keys; a pair
  `(k, Option.none)` models a key that is present in the record but whose
  value is `undefined` (the state left behind by the `removeLayer` handler,
  which assigns `undefined` instead of deleting the key);
- `unref` of the processed computable `enabled` becomes application of a
  function `Env → Bool` to the current outside state `env`;
- the `onPress` side effect is identified by which hotkey the listener fires,
  so the listener returns a `DispatchResult` that is either `noop` (no
  `preventDefault`, no `onPress`) or `fired h` (`preventDefault` plus
  `h.onPress`);
- JS `String.prototype.toUpperCase` / `toLowerCase` become per-character
  case mapping, and `Array.prototype.indexOf` returns `-1` when absent.
-/

/-- The outside state that processed computables read through `unref`:
`Env` stands for the reactive world at the instant of one access. -/
structure KeyEvent where
  key : String
  shiftKey : Bool
  ctrlKey : Bool
  targetIsInput : Bool
deriving DecidableEq, Repr

/-- The global win gate read by the listener: `hasWon.value` and
`player.keepGoing`. -/
structure GameState where
  hasWon : Bool
  keepGoing : Bool
deriving DecidableEq, Repr

/-- A hotkey after `createHotkey` processed it: the `enabled` computable is a
function of the outside state, re-applied on every access; `onPress` is
identified by a number so that firing can be observed. -/
structure GenericHotkey (Env : Type) where
  key : String
  enabled : Env → Bool
  description : String
  onPress : Nat

/-- Options handed to `createHotkey`; `enabled` is optional
(`enabled?: Computable<boolean>`). -/
structure HotkeyOptions (Env : Type) where
  enabled : Option (Env → Bool)
  key : String
  description : String
  onPress : Nat

/-- Embedding of `createHotkey`: `processComputable` turns `enabled` into a
re-evaluated accessor and `setDefault(hotkey, "enabled", true)` fills in the
constant `true` when the option was unspecified. -/
def createHotkey {Env : Type} (o : HotkeyOptions Env) : GenericHotkey Env :=
  { key := o.key
    enabled := match o.enabled with
      | Option.some f => f
      | Option.none => fun _ => true
    description := o.description
    onPress := o.onPress }

/-- The JS record `hotkeys: Record<string, GenericHotkey | undefined>`:
insertion-ordered entries with unique keys, values possibly `undefined`. -/
abbrev Registry (Env : Type) : Type := List (String × Option (GenericHotkey Env))

/-- The JS `in` operator on the record: key membership, regardless of whether
the stored value is `undefined`. -/
def hasKey {Env : Type} (r : Registry Env) (k : String) : Bool :=
  r.any (fun p => p.1 == k)

/-- Reading `hotkeys[k]`: the stored value at `k`, where both a missing key
and a key holding `undefined` read as `Option.none`. -/
def getKey {Env : Type} (r : Registry Env) (k : String) : Option (GenericHotkey Env) :=
  match r.find? (fun p => p.1 == k) with
  | Option.some p => p.2
  | Option.none => Option.none

/-- The JS assignment `hotkeys[k] = v`: overwrite the value at an existing
key in place, otherwise append a fresh entry. -/
def setKey {Env : Type} (r : Registry Env) (k : String) (v : Option (GenericHotkey Env)) :
    Registry Env :=
  if r.any (fun p => p.1 == k) then
    r.map (fun p => if p.1 == k then (k, v) else p)
  else
    r ++ [(k, v)]

/-- The `globalBus.on("addLayer")` handler: every hotkey found in the layer is
assigned into the record under its key. -/
def addLayer {Env : Type} (r : Registry Env) (layerHotkeys : List (GenericHotkey Env)) :
    Registry Env :=
  layerHotkeys.foldl (fun acc h => setKey acc h.key (Option.some h)) r

/-- The `globalBus.on("removeLayer")` handler: every hotkey found in the layer
has its record entry assigned `undefined` (the key is not deleted). -/
def removeLayer {Env : Type} (r : Registry Env) (layerHotkeys : List (GenericHotkey Env)) :
    Registry Env :=
  layerHotkeys.foldl (fun acc h => setKey acc h.key Option.none) r

/-- The table `uppercaseNumbers` of shifted-digit symbols, index = digit. -/
def uppercaseNumbers : List String :=
  [")", "!", "@", "#", "$", "%", "^", "&", "*", "("]

/-- JS `toUpperCase`, per character. -/
def toUpperCase (s : String) : String :=
  String.mk (s.data.map Char.toUpper)

/-- JS `toLowerCase`, per character. -/
def toLowerCase (s : String) : String :=
  String.mk (s.data.map Char.toLower)

/-- JS `Array.prototype.indexOf`: the index of the first occurrence, `-1`
when the element is absent. -/
def jsIndexOf (l : List String) (s : String) : Int :=
  match l.indexOf? s with
  | Option.some i => (i : Int)
  | Option.none => -1

/-- The candidate list `keysToCheck` built by the listener: starts as
`[e.key]`, then each branch splices the literal key out or pushes the
modifier-prefixed candidates, exactly as in the source. -/
def keysToCheck (e : KeyEvent) : List String :=
  if e.shiftKey && e.ctrlKey then
    ["ctrl+shift+" ++ toUpperCase e.key,
     "shift+ctrl+" ++ toUpperCase e.key] ++
    (if uppercaseNumbers.contains e.key then
      ["ctrl+shift+" ++ toString (jsIndexOf uppercaseNumbers e.key),
       "shift+ctrl+" ++ toString (jsIndexOf uppercaseNumbers e.key)]
     else
      ["ctrl+shift+" ++ toLowerCase e.key,
       "shift+ctrl+" ++ toLowerCase e.key])
  else if uppercaseNumbers.contains e.key then
    [e.key,
     "shift+" ++ e.key,
     "shift+" ++ toString (jsIndexOf uppercaseNumbers e.key)]
  else if e.shiftKey then
    [e.key,
     "shift+" ++ toUpperCase e.key,
     "shift+" ++ toLowerCase e.key]
  else if e.ctrlKey then
    ["ctrl+" ++ e.key]
  else
    [e.key]

/-- What the `document.onkeydown` listener observably does on one event:
`noop` when it returns without effect, `fired h` when it calls
`e.preventDefault()` and `h.onPress()`. -/
inductive DispatchResult (Env : Type) where
  | noop : DispatchResult Env
  | fired : GenericHotkey Env → DispatchResult Env

/-- Embedding of the `document.onkeydown` listener: the input-field gate, the
win gate, the resolver, then
`hotkeys[keysToCheck.find(key => key in hotkeys) ?? ""]` followed by
`if (hotkey && unref(hotkey.enabled))`. -/
def onkeydown {Env : Type} (env : Env) (st : GameState) (r : Registry Env) (e : KeyEvent) :
    DispatchResult Env :=
  if e.targetIsInput then
    DispatchResult.noop
  else if st.hasWon && !st.keepGoing then
    DispatchResult.noop
  else
    match getKey r (((keysToCheck e).find? (fun k => hasKey r k)).getD "") with
    | Option.some hotkey =>
        if hotkey.enabled env then DispatchResult.fired hotkey else DispatchResult.noop
    | Option.none => DispatchResult.noop

/-- One layer-lifecycle bus notification, carrying the hotkeys that
`findFeatures(layer, HotkeyType)` enumerates for the layer. -/
inductive LayerNotification (Env : Type) where
  | add : List (GenericHotkey Env) → LayerNotification Env
  | remove : List (GenericHotkey Env) → LayerNotification Env

/-- Dispatching one bus notification to its handler. -/
def applyNotification {Env : Type} (r : Registry Env) :
    LayerNotification Env → Registry Env
  | LayerNotification.add hs => addLayer r hs
  | LayerNotification.remove hs => removeLayer r hs

/-- The registry reached from the initial empty record by a sequence of
layer-lifecycle notifications. -/
def runNotifications {Env : Type} (ns : List (LayerNotification Env)) : Registry Env :=
  ns.foldl applyNotification []

/-- The most recent registration still in force for key `k` after the
notification sequence `ns`: later assignments win, and a removal clears. -/
def mostRecentRegistration {Env : Type} (ns : List (LayerNotification Env)) (k : String) :
    Option (GenericHotkey Env) :=
  ns.foldl
    (fun acc n =>
      match n with
      | LayerNotification.add hs =>
          hs.foldl (fun a h => if h.key == k then Option.some h else a) acc
      | LayerNotification.remove hs =>
          hs.foldl (fun a h => if h.key == k then Option.none else a) acc)
    Option.none

/-- A hotkey on key `"k"`, always enabled. -/
def hkK : GenericHotkey Unit :=
  { key := "k", enabled := fun _ => true, description := "kay", onPress := 1 }

/-- A hotkey on key `"shift+K"`, always enabled. -/
def hkShiftK : GenericHotkey Unit :=
  { key := "shift+K", enabled := fun _ => true, description := "shift kay", onPress := 2 }

/-- A hotkey registered under the bare key `"A"`. -/
def hkA : GenericHotkey Unit :=
  { key := "A", enabled := fun _ => true, description := "ay", onPress := 3 }

/-- A hotkey on key `"shift+A"`. -/
def hkShiftAUpper : GenericHotkey Unit :=
  { key := "shift+A", enabled := fun _ => true, description := "shift big ay", onPress := 4 }

/-- A hotkey on key `"shift+a"`. -/
def hkShiftALower : GenericHotkey Unit :=
  { key := "shift+a", enabled := fun _ => true, description := "shift small ay", onPress := 5 }

/-- The first layer's hotkey on key `"R"`. -/
def hkR1 : GenericHotkey Unit :=
  { key := "R", enabled := fun _ => true, description := "first ar", onPress := 6 }

/-- The second layer's hotkey on key `"R"`. -/
def hkR2 : GenericHotkey Unit :=
  { key := "R", enabled := fun _ => true, description := "second ar", onPress := 7 }

/-- A hotkey stored under the empty-string key. -/
def hkEmptyKey : GenericHotkey Unit :=
  { key := "", enabled := fun _ => true, description := "empty", onPress := 8 }

/-- A hotkey on key `"z"`, always enabled. -/
def hkZ : GenericHotkey Unit :=
  { key := "z", enabled := fun _ => true, description := "zed", onPress := 9 }

/-- A hotkey on key `"t"` whose `enabled` computable reads the outside state
(`Env := Bool` is the current value of the toggling condition). -/
def hkToggle : GenericHotkey Bool :=
  { key := "t", enabled := fun b => b, description := "toggling", onPress := 10 }

/-- Registry for the cleared-entry scenario: a layer with `"k"` is added, a
layer with `"shift+K"` is added, and then the `"k"` layer is removed, leaving
the key `"k"` present but cleared. -/
def rCleared : Registry Unit :=
  removeLayer (addLayer (addLayer [] [hkK]) [hkShiftK]) [hkK]

/-- Registry holding only the key `"A"`. -/
def rOnlyA : Registry Unit :=
  addLayer [] [hkA]

/-- Registry holding both `"shift+A"` and `"shift+a"`. -/
def rShiftA : Registry Unit :=
  addLayer [] [hkShiftAUpper, hkShiftALower]

/-- Registry reached by loading two layers that both register `"R"`. -/
def rDoubleR : Registry Unit :=
  runNotifications [LayerNotification.add [hkR1], LayerNotification.add [hkR2]]

/-- Registry holding a hotkey under the empty-string key. -/
def rEmptyKey : Registry Unit :=
  addLayer [] [hkEmptyKey]

/-- Registry holding only the key `"z"`. -/
def rOnlyZ : Registry Unit :=
  addLayer [] [hkZ]

/-- Registry holding the toggling hotkey on key `"t"`. -/
def rToggle : Registry Bool :=
  addLayer [] [hkToggle]

/-- The game state before winning. -/
def stPlaying : GameState :=
  { hasWon := false, keepGoing := false }

/-- A key-down event: `"k"` with shift held, not aimed at an input field. -/
def evShiftKeyK : KeyEvent :=
  { key := "k", shiftKey := true, ctrlKey := false, targetIsInput := false }

/-- A key-down event: `"a"` with shift held, not aimed at an input field. -/
def evShiftKeyA : KeyEvent :=
  { key := "a", shiftKey := true, ctrlKey := false, targetIsInput := false }

/-- A key-down event: plain `"R"`, no modifiers. -/
def evKeyR : KeyEvent :=
  { key := "R", shiftKey := false, ctrlKey := false, targetIsInput := false }

/-- A key-down event: plain `"q"`, no modifiers. -/
def evKeyQ : KeyEvent :=
  { key := "q", shiftKey := false, ctrlKey := false, targetIsInput := false }

/-- A key-down event: plain `"t"`, no modifiers. -/
def evKeyT : KeyEvent :=
  { key := "t", shiftKey := false, ctrlKey := false, targetIsInput := false }

/-- Options for a hotkey that leaves `enabled` unspecified. -/
def optsNoEnabled : HotkeyOptions Unit :=
  { enabled := Option.none, key := "n", description := "no enabled given", onPress := 11 }

/-- Unfolding `hasKey` on a nonempty record. -/
lemma hasKey_cons {Env : Type} (p : String × Option (GenericHotkey Env))
    (t : Registry Env) (k : String) :
    hasKey (p :: t) k = (p.1 == k || hasKey t k) := by
  simp [hasKey]

/-- Unfolding `getKey` on a nonempty record. -/
lemma getKey_cons {Env : Type} (p : String × Option (GenericHotkey Env))
    (t : Registry Env) (k : String) :
    getKey (p :: t) k = if p.1 == k then p.2 else getKey t k := by
  cases h : (p.1 == k) with
  | true => simp [getKey, List.find?_cons, h]
  | false => simp [getKey, List.find?_cons, h]

/-- Replacing the value at key `k` does not change reads at another key. -/
lemma getKey_map_setKey_ne {Env : Type} (t : Registry Env) (k k' : String)
    (v : Option (GenericHotkey Env)) (hne : k' ≠ k) :
    getKey (t.map (fun p => if p.1 == k then (k, v) else p)) k' = getKey t k' := by
  induction t with
  | nil => rfl
  | cons a t ih =>
    rw [List.map_cons, getKey_cons, getKey_cons]
    by_cases hak : a.1 = k
    · have h2 : (k == k') = false := by simp [Ne.symm hne]
      simp [hak, h2]
      simpa using ih
    · have h1 : (a.1 == k) = false := by simp [hak]
      cases h2 : (a.1 == k') with
      | true => simp [h1, h2]
      | false => simp [h1, h2]; simpa using ih

/-- Reads after the in-place overwrite branch of `setKey`. -/
lemma getKey_map_setKey {Env : Type} (r : Registry Env) (k : String)
    (v : Option (GenericHotkey Env)) (k' : String)
    (hany : r.any (fun p => p.1 == k) = true) :
    getKey (r.map (fun p => if p.1 == k then (k, v) else p)) k' =
      if k' = k then v else getKey r k' := by
  induction r with
  | nil => simp at hany
  | cons a t ih =>
    rw [List.map_cons, getKey_cons, getKey_cons]
    by_cases hak : a.1 = k
    · by_cases hkk' : k' = k
      · simp [hak, hkk']
      · have h3 : (k == k') = false := by simp [Ne.symm hkk']
        simp [hak, h3, hkk']
        simpa using getKey_map_setKey_ne t k k' v hkk'
    · have h1 : (a.1 == k) = false := by simp [hak]
      have hanyt : t.any (fun p => p.1 == k) = true := by
        rcases List.any_eq_true.mp hany with ⟨p, hp, hpk⟩
        rcases List.mem_cons.mp hp with hp | hp
        · exact absurd (by simpa [hp] using hpk) (by simpa using hak)
        · exact List.any_eq_true.mpr ⟨p, hp, hpk⟩
      cases h2 : (a.1 == k') with
      | true =>
        have hkk' : ¬k' = k := by
          intro hkk'
          exact hak (by rw [← hkk']; exact (beq_iff_eq.mp h2))
        simp [h1, h2, hkk']
      | false =>
        simp [h1, h2]
        simpa using ih hanyt

/-- Reads after the append branch of `setKey`. -/
lemma getKey_append_single {Env : Type} (r : Registry Env) (k : String)
    (v : Option (GenericHotkey Env)) (k' : String)
    (hany : r.any (fun p => p.1 == k) = false) :
    getKey (r ++ [(k, v)]) k' = if k' = k then v else getKey r k' := by
  induction r with
  | nil =>
    rw [List.nil_append, getKey_cons]
    by_cases hkk' : k' = k
    · simp [hkk']
    · have h2 : (k == k') = false := by simp [Ne.symm hkk']
      simp [h2, hkk', getKey]
  | cons a t ih =>
    rw [List.cons_append, getKey_cons, getKey_cons]
    have hsplit : ((a.1 == k) || t.any (fun p => p.1 == k)) = false := by
      simp only [List.any_cons] at hany
      exact hany
    have hak : (a.1 == k) = false := by
      cases hax : (a.1 == k) with
      | false => rfl
      | true => rw [hax] at hsplit; simp at hsplit
    have hanyt : t.any (fun p => p.1 == k) = false := by
      cases hax : t.any (fun p => p.1 == k) with
      | false => rfl
      | true => rw [hax] at hsplit; simp at hsplit
    cases h2 : (a.1 == k') with
    | true =>
      have hkk' : ¬k' = k := by
        intro hkk'
        rw [hkk'] at h2
        rw [h2] at hak
        exact absurd hak (by decide)
      simp [h2, hkk']
    | false =>
      simp [h2]
      exact ih hanyt

/-- Reads after a JS record assignment: the assigned key now reads the
assigned value, every other key is untouched. -/
lemma getKey_setKey {Env : Type} (r : Registry Env) (k : String)
    (v : Option (GenericHotkey Env)) (k' : String) :
    getKey (setKey r k v) k' = if k' = k then v else getKey r k' := by
  unfold setKey
  cases hany : r.any (fun p => p.1 == k) with
  | true => simpa using getKey_map_setKey r k v k' hany
  | false => simpa using getKey_append_single r k v k' hany

/-- A key that reads a stored hotkey is present in the record. -/
lemma hasKey_of_getKey_some {Env : Type} (r : Registry Env) (k : String)
    (h : GenericHotkey Env) (hget : getKey r k = Option.some h) :
    hasKey r k = true := by
  unfold getKey at hget
  cases hfind : r.find? (fun p => p.1 == k) with
  | none => rw [hfind] at hget; cases hget
  | some p =>
    have hmem := List.mem_of_find?_eq_some hfind
    have hpk := List.find?_some hfind
    exact List.any_eq_true.mpr ⟨p, hmem, hpk⟩

/-- A key absent from the record reads as nothing. -/
lemma getKey_of_hasKey_false {Env : Type} (r : Registry Env) (k : String)
    (hno : hasKey r k = false) :
    getKey r k = Option.none := by
  unfold getKey
  have : r.find? (fun p => p.1 == k) = Option.none := by
    rw [List.find?_eq_none]
    intro p hp hpk
    have : hasKey r k = true := List.any_eq_true.mpr ⟨p, hp, hpk⟩
    rw [this] at hno
    cases hno
  rw [this]

/-- Reads after the `addLayer` handler ran: a left fold of last-write-wins
assignments over the layer's hotkeys. -/
lemma getKey_addLayer {Env : Type} (hs : List (GenericHotkey Env)) (r : Registry Env)
    (k : String) :
    getKey (addLayer r hs) k =
      hs.foldl (fun a h => if h.key == k then Option.some h else a) (getKey r k) := by
  induction hs generalizing r with
  | nil => rfl
  | cons h hs ih =>
    show getKey (addLayer (setKey r h.key (Option.some h)) hs) k = _
    rw [ih, getKey_setKey]
    by_cases hk : k = h.key
    · simp [hk]
    · have hk2 : (h.key == k) = false := by simp [Ne.symm hk]
      have hk3 : ¬h.key = k := fun hh => hk hh.symm
      simp [hk, hk2, hk3]

/-- Reads after the `removeLayer` handler ran: a left fold of clearing
assignments over the layer's hotkeys. -/
lemma getKey_removeLayer {Env : Type} (hs : List (GenericHotkey Env)) (r : Registry Env)
    (k : String) :
    getKey (removeLayer r hs) k =
      hs.foldl (fun a h => if h.key == k then Option.none else a) (getKey r k) := by
  induction hs generalizing r with
  | nil => rfl
  | cons h hs ih =>
    show getKey (removeLayer (setKey r h.key Option.none) hs) k = _
    rw [ih, getKey_setKey]
    by_cases hk : k = h.key
    · simp [hk]
    · have hk2 : (h.key == k) = false := by simp [Ne.symm hk]
      have hk3 : ¬h.key = k := fun hh => hk hh.symm
      simp [hk, hk2, hk3]

/-- Reads after any notification sequence agree with the most recent
registration still in force. -/
lemma getKey_runNotifications {Env : Type} (ns : List (LayerNotification Env)) (k : String) :
    getKey (runNotifications ns) k = mostRecentRegistration ns k := by
  suffices hgen : ∀ (r : Registry Env) (acc : Option (GenericHotkey Env)),
      getKey r k = acc →
      getKey (ns.foldl applyNotification r) k =
        ns.foldl
          (fun acc n =>
            match n with
            | LayerNotification.add hs =>
                hs.foldl (fun a h => if h.key == k then Option.some h else a) acc
            | LayerNotification.remove hs =>
                hs.foldl (fun a h => if h.key == k then Option.none else a) acc)
          acc by
    exact hgen [] Option.none rfl
  induction ns with
  | nil => intro r acc hacc; simpa using hacc
  | cons n ns ih =>
    intro r acc hacc
    rw [List.foldl_cons, List.foldl_cons]
    cases n with
    | add hs =>
      exact ih (addLayer r hs) _ (by rw [getKey_addLayer, hacc])
    | remove hs =>
      exact ih (removeLayer r hs) _ (by rw [getKey_removeLayer, hacc])

/-- The record's key list after an assignment: unchanged when the key was
already present, extended by the key otherwise. -/
lemma keys_setKey {Env : Type} (r : Registry Env) (k : String)
    (v : Option (GenericHotkey Env)) :
    (setKey r k v).map Prod.fst =
      if hasKey r k then r.map Prod.fst else r.map Prod.fst ++ [k] := by
  unfold setKey hasKey
  by_cases hany : r.any (fun p => p.1 == k) = true
  · rw [if_pos hany, if_pos hany, List.map_map]
    refine List.map_congr_left ?_
    intro p hp
    by_cases hpk : p.1 = k
    · simp [hpk]
    · simp [hpk]
  · rw [if_neg hany, if_neg hany, List.map_append]
    rfl

/-- An assignment never duplicates a key in the record. -/
lemma nodup_keys_setKey {Env : Type} (r : Registry Env) (k : String)
    (v : Option (GenericHotkey Env)) (hnd : (r.map Prod.fst).Nodup) :
    ((setKey r k v).map Prod.fst).Nodup := by
  rw [keys_setKey]
  cases hany : hasKey r k with
  | true => simpa using hnd
  | false =>
    have hnotmem : k ∉ r.map Prod.fst := by
      intro hmem
      rcases List.mem_map.mp hmem with ⟨p, hp, hpk⟩
      have : hasKey r k = true := List.any_eq_true.mpr ⟨p, hp, by simp [hpk]⟩
      rw [this] at hany
      cases hany
    simp [List.nodup_append, hnd, hnotmem]

/-- The `addLayer` handler keeps the record's keys duplicate-free. -/
lemma nodup_keys_addLayer {Env : Type} (hs : List (GenericHotkey Env)) (r : Registry Env)
    (hnd : (r.map Prod.fst).Nodup) :
    ((addLayer r hs).map Prod.fst).Nodup := by
  induction hs generalizing r with
  | nil => exact hnd
  | cons h hs ih => exact ih _ (nodup_keys_setKey r h.key _ hnd)

/-- The `removeLayer` handler keeps the record's keys duplicate-free. -/
lemma nodup_keys_removeLayer {Env : Type} (hs : List (GenericHotkey Env)) (r : Registry Env)
    (hnd : (r.map Prod.fst).Nodup) :
    ((removeLayer r hs).map Prod.fst).Nodup := by
  induction hs generalizing r with
  | nil => exact hnd
  | cons h hs ih => exact ih _ (nodup_keys_setKey r h.key _ hnd)

/-- Any reachable record has duplicate-free keys. -/
lemma nodup_keys_runNotifications {Env : Type} (ns : List (LayerNotification Env)) :
    ((runNotifications ns).map Prod.fst).Nodup := by
  suffices hgen : ∀ r : Registry Env, (r.map Prod.fst).Nodup →
      ((ns.foldl applyNotification r).map Prod.fst).Nodup by
    exact hgen [] (by simp)
  induction ns with
  | nil => intro r hnd; exact hnd
  | cons n ns ih =>
    intro r hnd
    rw [List.foldl_cons]
    cases n with
    | add hs => exact ih _ (nodup_keys_addLayer hs r hnd)
    | remove hs => exact ih _ (nodup_keys_removeLayer hs r hnd)

/-- Uppercasing preserves the length of a string. -/
lemma length_toUpperCase (s : String) : (toUpperCase s).length = s.length := by
  show (s.data.map Char.toUpper).length = s.data.length
  exact List.length_map s.data Char.toUpper

/-- Lowercasing preserves the length of a string. -/
lemma length_toLowerCase (s : String) : (toLowerCase s).length = s.length := by
  show (s.data.map Char.toLower).length = s.data.length
  exact List.length_map s.data Char.toLower

/-- Unfolding the listener when both gates let the event through. -/
lemma onkeydown_of_gates_open {Env : Type} (env : Env) (st : GameState) (r : Registry Env)
    (e : KeyEvent) (hi : e.targetIsInput = false)
    (hw : (st.hasWon && !st.keepGoing) = false) :
    onkeydown env st r e =
      match getKey r (((keysToCheck e).find? (fun k => hasKey r k)).getD "") with
      | Option.some hotkey =>
          if hotkey.enabled env then DispatchResult.fired hotkey else DispatchResult.noop
      | Option.none => DispatchResult.noop := by
  unfold onkeydown
  rw [hi, hw]
  simp

example : keysToCheck { key := "k", shiftKey := true, ctrlKey := true, targetIsInput := false } =
    ["ctrl+shift+K", "shift+ctrl+K", "ctrl+shift+k", "shift+ctrl+k"] := by decide

example : keysToCheck { key := "!", shiftKey := true, ctrlKey := false, targetIsInput := false } =
    ["!", "shift+!", "shift+1"] := by decide

example : keysToCheck { key := "a", shiftKey := true, ctrlKey := false, targetIsInput := false } =
    ["a", "shift+A", "shift+a"] := by decide

example : keysToCheck { key := "b", shiftKey := false, ctrlKey := true, targetIsInput := false } =
    ["ctrl+b"] := by decide

example : keysToCheck { key := "b", shiftKey := false, ctrlKey := false, targetIsInput := false } =
    ["b"] := by decide

/-- C1 counterexample: after a layer removal clears the registry entry for
`"k"` (value set to absent, key kept), a shift+`"k"` press finds the cleared
key via the JS `in` probe and stops there, so the later candidate
`"shift+K"` — present and enabled — is never probed and nothing fires,
contradicting the claim that cleared entries do not count for dispatch. -/
theorem C1_counterexample :
    getKey rCleared "shift+K" = Option.some hkShiftK ∧
    "shift+K" ∈ keysToCheck evShiftKeyK ∧
    hkShiftK.enabled () = true ∧
    hasKey rCleared "k" = true ∧
    getKey rCleared "k" = Option.none ∧
    onkeydown () stPlaying rCleared evShiftKeyK = DispatchResult.noop := by
  exact ⟨rfl, by decide, rfl, by decide, rfl, rfl⟩

/-- C1 (amended): for every key-down event that passes the input-field and
win gates, dispatch is decided solely by the registry entry of the first
candidate, in resolver order, whose KEY is present in the record — where a
key cleared on layer removal still counts as present; if that entry is
cleared, dispatch is a no-op and later candidates are not probed. -/
theorem C1_first_member_key_decides {Env : Type} (env : Env) (st : GameState)
    (r : Registry Env) (e : KeyEvent) (k : String)
    (hi : e.targetIsInput = false)
    (hw : (st.hasWon && !st.keepGoing) = false)
    (hfind : (keysToCheck e).find? (fun c => hasKey r c) = Option.some k) :
    onkeydown env st r e =
      match getKey r k with
      | Option.some h =>
          if h.enabled env then DispatchResult.fired h else DispatchResult.noop
      | Option.none => DispatchResult.noop := by
  rw [onkeydown_of_gates_open env st r e hi hw, hfind]
  rfl

/-- C1 witness: the amended dispatch rule applied to the cleared-`"k"`
registry and the shift+`"k"` event. -/
theorem C1_witness :
    onkeydown () stPlaying rCleared evShiftKeyK =
      match getKey rCleared "k" with
      | Option.some h =>
          if h.enabled () then DispatchResult.fired h else DispatchResult.noop
      | Option.none => DispatchResult.noop :=
  C1_first_member_key_decides () stPlaying rCleared evShiftKeyK "k" rfl rfl (by decide)

/-- C2: with both shift and ctrl held the candidate list omits the literal
raw key and is exactly ctrl+shift+upper, shift+ctrl+upper, then either the
two digit aliases (for shifted-digit symbols) or the two lowercase aliases,
in that order. -/
theorem C2_shift_ctrl_candidates (e : KeyEvent)
    (hs : e.shiftKey = true) (hc : e.ctrlKey = true) :
    keysToCheck e =
      ["ctrl+shift+" ++ toUpperCase e.key, "shift+ctrl+" ++ toUpperCase e.key] ++
      (if uppercaseNumbers.contains e.key then
        ["ctrl+shift+" ++ toString (jsIndexOf uppercaseNumbers e.key),
         "shift+ctrl+" ++ toString (jsIndexOf uppercaseNumbers e.key)]
       else
        ["ctrl+shift+" ++ toLowerCase e.key,
         "shift+ctrl+" ++ toLowerCase e.key]) ∧
    e.key ∉ keysToCheck e ∧
    (uppercaseNumbers.contains e.key = true →
      0 ≤ jsIndexOf uppercaseNumbers e.key ∧
      jsIndexOf uppercaseNumbers e.key < 10 ∧
      uppercaseNumbers.getD (jsIndexOf uppercaseNumbers e.key).toNat "" = e.key) := by
  have heq : keysToCheck e =
      ["ctrl+shift+" ++ toUpperCase e.key, "shift+ctrl+" ++ toUpperCase e.key] ++
      (if uppercaseNumbers.contains e.key then
        ["ctrl+shift+" ++ toString (jsIndexOf uppercaseNumbers e.key),
         "shift+ctrl+" ++ toString (jsIndexOf uppercaseNumbers e.key)]
       else
        ["ctrl+shift+" ++ toLowerCase e.key,
         "shift+ctrl+" ++ toLowerCase e.key]) := by
    unfold keysToCheck
    rw [hs, hc]
    simp
  refine ⟨heq, ?_, ?_⟩
  case refine_2 =>
    intro hd
    have hten : e.key = ")" ∨ e.key = "!" ∨ e.key = "@" ∨ e.key = "#" ∨ e.key = "$" ∨
        e.key = "%" ∨ e.key = "^" ∨ e.key = "&" ∨ e.key = "*" ∨ e.key = "(" := by
      simpa [uppercaseNumbers] using hd
    rcases hten with hk | hk | hk | hk | hk | hk | hk | hk | hk | hk <;> rw [hk] <;> decide
  intro hmem
  cases hdig : uppercaseNumbers.contains e.key with
  | true =>
    have heq2 : keysToCheck e =
        ["ctrl+shift+" ++ toUpperCase e.key, "shift+ctrl+" ++ toUpperCase e.key,
         "ctrl+shift+" ++ toString (jsIndexOf uppercaseNumbers e.key),
         "shift+ctrl+" ++ toString (jsIndexOf uppercaseNumbers e.key)] := by
      rw [heq, hdig]
      simp
    rw [heq2] at hmem
    have hten : e.key = ")" ∨ e.key = "!" ∨ e.key = "@" ∨ e.key = "#" ∨ e.key = "$" ∨
        e.key = "%" ∨ e.key = "^" ∨ e.key = "&" ∨ e.key = "*" ∨ e.key = "(" := by
      simpa [uppercaseNumbers] using hdig
    rcases hten with hk | hk | hk | hk | hk | hk | hk | hk | hk | hk <;>
      rw [hk] at hmem <;> exact absurd hmem (by decide)
  | false =>
    have heq2 : keysToCheck e =
        ["ctrl+shift+" ++ toUpperCase e.key, "shift+ctrl+" ++ toUpperCase e.key,
         "ctrl+shift+" ++ toLowerCase e.key, "shift+ctrl+" ++ toLowerCase e.key] := by
      rw [heq, hdig]
      simp
    rw [heq2] at hmem
    simp only [List.mem_cons, List.not_mem_nil, or_false] at hmem
    have hpre : ("ctrl+shift+" : String).length = 11 := rfl
    have hpre2 : ("shift+ctrl+" : String).length = 11 := rfl
    rcases hmem with h | h | h | h
    · have := congrArg String.length h
      rw [String.length_append, length_toUpperCase, hpre] at this
      omega
    · have := congrArg String.length h
      rw [String.length_append, length_toUpperCase, hpre2] at this
      omega
    · have := congrArg String.length h
      rw [String.length_append, length_toLowerCase, hpre] at this
      omega
    · have := congrArg String.length h
      rw [String.length_append, length_toLowerCase, hpre2] at this
      omega

/-- C2 witness: pressing ctrl+shift with key `"k"` probes exactly
ctrl+shift+K, shift+ctrl+K, ctrl+shift+k, shift+ctrl+k, in that order, and
the literal `"k"` is not among the candidates. -/
theorem C2_witness :
    keysToCheck { key := "k", shiftKey := true, ctrlKey := true, targetIsInput := false } =
      ["ctrl+shift+K", "shift+ctrl+K", "ctrl+shift+k", "shift+ctrl+k"] ∧
    "k" ∉ keysToCheck { key := "k", shiftKey := true, ctrlKey := true, targetIsInput := false } := by
  have h := C2_shift_ctrl_candidates
    { key := "k", shiftKey := true, ctrlKey := true, targetIsInput := false } rfl rfl
  exact ⟨by decide, h.2.1⟩

/-- C3: for a key-down event delivering one of the ten shifted-digit symbols
while shift and ctrl are not both held, the candidate list is exactly the
literal symbol, then shift+symbol, then shift+digit, where the digit is the
symbol's position 0–9 in the shifted-digit table. -/
theorem C3_symbol_candidates (e : KeyEvent)
    (hmods : (e.shiftKey && e.ctrlKey) = false)
    (hdig : uppercaseNumbers.contains e.key = true) :
    keysToCheck e =
      [e.key, "shift+" ++ e.key,
       "shift+" ++ toString (jsIndexOf uppercaseNumbers e.key)] ∧
    0 ≤ jsIndexOf uppercaseNumbers e.key ∧
    jsIndexOf uppercaseNumbers e.key < 10 ∧
    uppercaseNumbers.getD (jsIndexOf uppercaseNumbers e.key).toNat "" = e.key := by
  have hlist : keysToCheck e =
      [e.key, "shift+" ++ e.key,
       "shift+" ++ toString (jsIndexOf uppercaseNumbers e.key)] := by
    unfold keysToCheck
    rw [hmods, hdig]
    simp
  have hten : e.key = ")" ∨ e.key = "!" ∨ e.key = "@" ∨ e.key = "#" ∨ e.key = "$" ∨
      e.key = "%" ∨ e.key = "^" ∨ e.key = "&" ∨ e.key = "*" ∨ e.key = "(" := by
    simpa [uppercaseNumbers] using hdig
  refine ⟨hlist, ?_⟩
  rcases hten with hk | hk | hk | hk | hk | hk | hk | hk | hk | hk <;> rw [hk] <;> decide

/-- C3 witness: a press delivering `"!"` (with shift alone) probes the
literal `"!"` first, then `"shift+!"`, then `"shift+1"`. -/
theorem C3_witness :
    keysToCheck { key := "!", shiftKey := true, ctrlKey := false, targetIsInput := false } =
      ["!", "shift+!", "shift+1"] ∧
    0 ≤ jsIndexOf uppercaseNumbers "!" ∧
    jsIndexOf uppercaseNumbers "!" < 10 ∧
    uppercaseNumbers.getD (jsIndexOf uppercaseNumbers "!").toNat "" = "!" := by
  have h := C3_symbol_candidates
    { key := "!", shiftKey := true, ctrlKey := false, targetIsInput := false } rfl rfl
  exact ⟨by decide, h.2⟩

/-- C4: with shift held, ctrl not held, and a key outside the shifted-digit
table, the candidate list is exactly the literal key as delivered, then
shift+uppercase, then shift+lowercase. -/
theorem C4_shift_only_candidates (e : KeyEvent)
    (hs : e.shiftKey = true) (hc : e.ctrlKey = false)
    (hnd : uppercaseNumbers.contains e.key = false) :
    keysToCheck e =
      [e.key, "shift+" ++ toUpperCase e.key, "shift+" ++ toLowerCase e.key] := by
  unfold keysToCheck
  rw [hs, hc, hnd]
  simp

/-- C4 witness: shift with key `"a"` probes `"a"`, `"shift+A"`, `"shift+a"`
in that order. -/
theorem C4_witness :
    keysToCheck { key := "a", shiftKey := true, ctrlKey := false, targetIsInput := false } =
      ["a", "shift+A", "shift+a"] := by
  rw [C4_shift_only_candidates
    { key := "a", shiftKey := true, ctrlKey := false, targetIsInput := false } rfl rfl
    (by decide)]
  decide

/-- C5 counterexample: with a hotkey registered under the key string `"A"`
and a key-down event reported as key `"a"` with shift held, dispatch is a
no-op — the candidates are `"a"`, `"shift+A"`, `"shift+a"`, none of which is
the registered string `"A"`, so no action fires and nothing matches. -/
theorem C5_counterexample :
    getKey rOnlyA "A" = Option.some hkA ∧
    hkA.enabled () = true ∧
    onkeydown () stPlaying rOnlyA evShiftKeyA = DispatchResult.noop := by
  exact ⟨rfl, rfl, rfl⟩

/-- C5 (amended): a hotkey registered under `"shift+A"` is matched by a
key-down event with key `"a"` and shift held (ctrl not held), via the
candidate `"shift+A"` before the fallback `"shift+a"`, provided the literal
key `"a"` itself is not a registry key. -/
theorem C5_shiftA_matches {Env : Type} (env : Env) (st : GameState) (r : Registry Env)
    (h : GenericHotkey Env)
    (hi : (evShiftKeyA).targetIsInput = false)
    (hw : (st.hasWon && !st.keepGoing) = false)
    (hnotlit : hasKey r "a" = false)
    (hreg : getKey r "shift+A" = Option.some h)
    (hen : h.enabled env = true) :
    onkeydown env st r evShiftKeyA = DispatchResult.fired h := by
  rw [onkeydown_of_gates_open env st r evShiftKeyA hi hw]
  have hhk : hasKey r "shift+A" = true := hasKey_of_getKey_some r _ h hreg
  have hlist : keysToCheck evShiftKeyA = ["a", "shift+A", "shift+a"] := by decide
  rw [hlist]
  have hfind : (["a", "shift+A", "shift+a"] : List String).find? (fun c => hasKey r c) =
      Option.some "shift+A" := by
    simp [List.find?_cons, hnotlit, hhk]
  rw [hfind]
  simp [hreg, hen]

/-- C5 witness: with both `"shift+A"` and `"shift+a"` registered, the shifted
`"a"` press fires the `"shift+A"` hotkey. -/
theorem C5_witness :
    onkeydown () stPlaying rShiftA evShiftKeyA = DispatchResult.fired hkShiftAUpper :=
  C5_shiftA_matches () stPlaying rShiftA hkShiftAUpper rfl rfl (by decide) rfl rfl

/-- C6: while the won flag is set and the continue-past-win preference is
not, every key-down event is a no-op, whatever the registry holds; and with
the preference set, dispatch behaves exactly as in the un-won state on the
same registry, so no re-registration is needed. -/
theorem C6_win_gate {Env : Type} :
    (∀ (env : Env) (r : Registry Env) (e : KeyEvent),
        onkeydown env { hasWon := true, keepGoing := false } r e = DispatchResult.noop) ∧
    (∀ (env : Env) (r : Registry Env) (e : KeyEvent),
        onkeydown env { hasWon := true, keepGoing := true } r e =
          onkeydown env { hasWon := false, keepGoing := false } r e) := by
  constructor
  · intro env r e
    unfold onkeydown
    by_cases hi : e.targetIsInput = true
    · simp [hi]
    · simp [hi]
  · intro env r e
    rfl

/-- C7: when no resolver candidate is a key of the registry record and the
empty string is not one either, a gated-through key-down event is a no-op:
nothing fires and the default browser behavior is kept (the listener never
reaches `preventDefault`); the registry is not touched by dispatch at all. -/
theorem C7_no_match_noop {Env : Type} (env : Env) (st : GameState) (r : Registry Env)
    (e : KeyEvent)
    (hi : e.targetIsInput = false)
    (hw : (st.hasWon && !st.keepGoing) = false)
    (hnone : ∀ k ∈ keysToCheck e, hasKey r k = false)
    (hempty : hasKey r "" = false) :
    onkeydown env st r e = DispatchResult.noop := by
  rw [onkeydown_of_gates_open env st r e hi hw]
  have hfind : (keysToCheck e).find? (fun c => hasKey r c) = Option.none := by
    rw [List.find?_eq_none]
    intro k hk
    simp [hnone k hk]
  rw [hfind]
  have hget : getKey r ((Option.none : Option String).getD "") = Option.none :=
    getKey_of_hasKey_false r "" hempty
  rw [hget]

/-- C7 witness: a plain `"q"` press against a registry holding only `"z"`
is a no-op. -/
theorem C7_witness : onkeydown () stPlaying rOnlyZ evKeyQ = DispatchResult.noop :=
  C7_no_match_noop () stPlaying rOnlyZ evKeyQ rfl rfl (by decide) (by decide)

/-- C8: every reachable registry record keeps at most one entry per key
string (its key list is duplicate-free), the entry read for any key is the
most recent registration still in force (last-write-wins, removals clear),
and in the two-layers-register-`"R"` scenario the later layer's hotkey is
stored and fires on a press of `"R"`. -/
theorem C8_registry_last_write_wins {Env : Type} :
    (∀ ns : List (LayerNotification Env), ((runNotifications ns).map Prod.fst).Nodup) ∧
    (∀ (ns : List (LayerNotification Env)) (k : String),
        getKey (runNotifications ns) k = mostRecentRegistration ns k) ∧
    getKey rDoubleR "R" = Option.some hkR2 ∧
    onkeydown () stPlaying rDoubleR evKeyR = DispatchResult.fired hkR2 := by
  exact ⟨nodup_keys_runNotifications, getKey_runNotifications, rfl, rfl⟩

/-- C9: a hotkey built without an `enabled` option reads `enabled` as `true`
in every outside state, and a matching registered hotkey fires exactly when
its `enabled` computable evaluates to `true` in the state current at that
press — the enable check is re-evaluated at each dispatch, never cached. -/
theorem C9_enabled_default_and_fresh {Env : Type} :
    (∀ o : HotkeyOptions Env, o.enabled = Option.none →
        ∀ env : Env, (createHotkey o).enabled env = true) ∧
    (∀ (env : Env) (st : GameState) (r : Registry Env) (e : KeyEvent)
        (h : GenericHotkey Env),
        e.targetIsInput = false →
        (st.hasWon && !st.keepGoing) = false →
        getKey r (((keysToCheck e).find? (fun c => hasKey r c)).getD "") =
          Option.some h →
        (onkeydown env st r e = DispatchResult.fired h ↔ h.enabled env = true)) := by
  constructor
  · intro o ho env
    unfold createHotkey
    rw [ho]
  · intro env st r e h hi hw hget
    rw [onkeydown_of_gates_open env st r e hi hw, hget]
    constructor
    · intro hfired
      by_cases hen : h.enabled env = true
      · exact hen
      · simp [hen] at hfired
    · intro hen
      simp [hen]

/-- C9 witness: the defaulted hotkey reads enabled in the unit state, and
the toggling hotkey fires exactly when its condition currently holds —
fires when the condition reads true, not when it reads false. -/
theorem C9_witness :
    (createHotkey optsNoEnabled).enabled () = true ∧
    (onkeydown true stPlaying rToggle evKeyT = DispatchResult.fired hkToggle ↔
      hkToggle.enabled true = true) ∧
    (onkeydown false stPlaying rToggle evKeyT = DispatchResult.fired hkToggle ↔
      hkToggle.enabled false = true) := by
  refine ⟨C9_enabled_default_and_fresh.1 optsNoEnabled rfl (), ?_, ?_⟩
  · exact C9_enabled_default_and_fresh.2 true stPlaying rToggle evKeyT hkToggle rfl rfl rfl
  · exact C9_enabled_default_and_fresh.2 false stPlaying rToggle evKeyT hkToggle rfl rfl rfl

/-- C10: a definition stored under the empty-string key is dispatched, when
enabled, by any gated-through key-down event none of whose candidates is a
key of the record — the `?? ""` fallback looks the empty string up. -/
theorem C10_empty_key_fallback {Env : Type} (env : Env) (st : GameState)
    (r : Registry Env) (e : KeyEvent) (h : GenericHotkey Env)
    (hi : e.targetIsInput = false)
    (hw : (st.hasWon && !st.keepGoing) = false)
    (hnone : ∀ k ∈ keysToCheck e, hasKey r k = false)
    (hreg : getKey r "" = Option.some h)
    (hen : h.enabled env = true) :
    onkeydown env st r e = DispatchResult.fired h := by
  rw [onkeydown_of_gates_open env st r e hi hw]
  have hfind : (keysToCheck e).find? (fun c => hasKey r c) = Option.none := by
    rw [List.find?_eq_none]
    intro k hk
    simp [hnone k hk]
  rw [hfind]
  simp [hreg, hen]

/-- C10 witness: a plain `"q"` press with only the empty-string key stored
fires the empty-key hotkey. -/
theorem C10_witness :
    onkeydown () stPlaying rEmptyKey evKeyQ = DispatchResult.fired hkEmptyKey :=
  C10_empty_key_fallback () stPlaying rEmptyKey evKeyQ hkEmptyKey rfl rfl
    (by decide) rfl rfl
